import Mathlib

/-!
Verification development for the Darling startup front door
(`src/startup/darling.c`).  C strings are modelled as `List Char`
(one `Char` per byte; none of the strings involved contain interior
nul bytes), machine integers as `Int`, and the effectful pieces
(pid-record discovery, the terminal-proxy event loop, the signal
handler) as pure functions over explicit state describing the parts
of the outside world they read, together with the observable actions
they perform (commands pushed on the protocol channel, record
deletion, process exit).
-/

namespace Darling

/-! ### Spawn-protocol commands

The wire protocol of `shellspawn` as used by `darling.c`: each message is a
command kind, a payload length and the payload bytes
(`pushShellspawnCommandData`, darling.c:264).  String payloads are sent with
their terminating nul (`strlen(value) + 1`, darling.c:290); `SETUIDGID`
carries two 4-byte integers (darling.c:620); `SIGNAL` one 4-byte integer
(darling.c:353); `GO` has an empty payload and carries three descriptors as
ancillary data (`pushShellspawnCommandFDs`, darling.c:293). -/

/-- Command kinds of the shellspawn wire protocol (shellspawn.h). -/
inductive CmdKind
  | setEnv
  | addArg
  | chdir
  | setUidGid
  | setExec
  | go
  | signal
deriving DecidableEq

/-- A spawn-protocol command together with the data determining its payload. -/
inductive Cmd
  | setEnv (payload : List Char)
  | addArg (payload : List Char)
  | chdir (payload : List Char)
  | setUidGid (uid gid : Int)
  | setExec (payload : List Char)
  | go (fd0 fd1 fd2 : Int)
  | signal (signo : Int)
deriving DecidableEq

/-- The kind of a command. -/
def Cmd.kind : Cmd → CmdKind
  | .setEnv _ => .setEnv
  | .addArg _ => .addArg
  | .chdir _ => .chdir
  | .setUidGid _ _ => .setUidGid
  | .setExec _ => .setExec
  | .go _ _ _ => .go
  | .signal _ => .signal

/-- The `data_length` field of the encoded message: string payloads are sent
with their terminating nul (`strlen(value) + 1`), `setUidGid` sends two 4-byte
ints, `signal` one 4-byte int, and `go` sends no payload at all. -/
def Cmd.payloadLength : Cmd → Nat
  | .setEnv s => s.length + 1
  | .addArg s => s.length + 1
  | .chdir s => s.length + 1
  | .setUidGid _ _ => 8
  | .setExec s => s.length + 1
  | .go _ _ _ => 0
  | .signal _ => 4

/-- The descriptors carried as ancillary data alongside a command:
`pushShellspawnCommandFDs` attaches exactly the three-element descriptor
array to a `go` message; no other command carries descriptors. -/
def Cmd.ancillaryFds : Cmd → List Int
  | .go f0 f1 f2 => [f0, f1, f2]
  | _ => []

/-! ### Shell-mode quoting (`escapeQuotes`, darling.c:523, and the
command-string construction in `spawnShell`, darling.c:659) -/

/-- escapeQuotes (darling.c:523): replace each single-quote character with the
four-character sequence quote, backslash, quote, quote and copy everything
else verbatim.  The C function writes the result to `dest` (when non-null)
and returns its length; here the result is returned and its length is
`List.length` of it. -/
def escapeQuotes : List Char → List Char
  | [] => []
  | c :: s => (if c = '\'' then ['\'', '\\', '\'', '\''] else [c]) ++ escapeQuotes s

/-- One argument as written by the `spawnShell` loop (darling.c:667): an
opening quote, the escaped argument, a closing quote. -/
def quoteArg (a : List Char) : List Char :=
  '\'' :: (escapeQuotes a ++ ['\''])

/-- The command string built by `spawnShell` (darling.c:659): the quoted
arguments joined by single spaces (a space is written before every argument
except the first). -/
def shellCommandString : List (List Char) → List Char
  | [] => []
  | [a] => quoteArg a
  | a :: b :: bs => quoteArg a ++ (' ' :: shellCommandString (b :: bs))

/-- Sum over the arguments of the escaped length returned by
`escapeQuotes(NULL, arg)` — the `total_len` accumulated at darling.c:662. -/
def escapedTotal (argv : List (List Char)) : Nat :=
  (argv.map fun a => (escapeQuotes a).length).sum

/-- The allocation made at darling.c:664: `malloc(total_len + count*3)`. -/
def spawnShellBufSize (argv : List (List Char)) : Nat :=
  escapedTotal argv + 3 * argv.length

/-! ### A POSIX shell splitter

Modelled from the spec: the external re-parser against which the quoting
round-trip is stated — POSIX shell word-splitting and quote-removal rules
(field splitting on unquoted blanks, single quotes making everything up to
the next single quote literal, backslash escaping the next character outside
quotes, double quotes with backslash escaping only dollar, backquote, double
quote, backslash and newline).  No expansions are performed.  `none` reports
input that is not a complete word list (an unterminated quote or a trailing
backslash). -/

/-- Parser modes of the splitter: outside quotes, outside quotes after a
backslash, inside single quotes, inside double quotes, and inside double
quotes after a backslash. -/
inductive SplitMode
  | norm
  | normEsc
  | squote
  | dquote
  | dquoteEsc
deriving DecidableEq

/-- Unquoted field-splitting characters. -/
def isBlank (c : Char) : Prop := c = ' ' ∨ c = '\t' ∨ c = '\n'

instance (c : Char) : Decidable (isBlank c) := by
  unfold isBlank
  infer_instance

/-- Characters that a backslash escapes inside double quotes. -/
def isDquoteSpecial (c : Char) : Prop := c = '$' ∨ c = '`' ∨ c = '"' ∨ c = '\\'

instance (c : Char) : Decidable (isDquoteSpecial c) := by
  unfold isDquoteSpecial
  infer_instance

/-- The splitter state machine.  `cur` is the word accumulated so far,
`started` whether a word is in progress (so that a quoted empty string still
yields a field), `acc` the completed fields. -/
def splitAux : SplitMode → List Char → List Char → Bool → List (List Char) →
    Option (List (List Char))
  | .norm, [], cur, started, acc =>
      some (acc ++ if started then [cur] else [])
  | .norm, c :: rest, cur, started, acc =>
      if isBlank c then
        splitAux .norm rest [] false (acc ++ if started then [cur] else [])
      else if c = '\'' then splitAux .squote rest cur true acc
      else if c = '"' then splitAux .dquote rest cur true acc
      else if c = '\\' then splitAux .normEsc rest cur started acc
      else splitAux .norm rest (cur ++ [c]) true acc
  | .normEsc, [], _, _, _ => none
  | .normEsc, c :: rest, cur, started, acc =>
      if c = '\n' then splitAux .norm rest cur started acc
      else splitAux .norm rest (cur ++ [c]) true acc
  | .squote, [], _, _, _ => none
  | .squote, c :: rest, cur, started, acc =>
      if c = '\'' then splitAux .norm rest cur started acc
      else splitAux .squote rest (cur ++ [c]) started acc
  | .dquote, [], _, _, _ => none
  | .dquote, c :: rest, cur, started, acc =>
      if c = '"' then splitAux .norm rest cur started acc
      else if c = '\\' then splitAux .dquoteEsc rest cur started acc
      else splitAux .dquote rest (cur ++ [c]) started acc
  | .dquoteEsc, [], _, _, _ => none
  | .dquoteEsc, c :: rest, cur, started, acc =>
      if isDquoteSpecial c then splitAux .dquote rest (cur ++ [c]) started acc
      else if c = '\n' then splitAux .dquote rest cur started acc
      else splitAux .dquote rest (cur ++ ['\\', c]) started acc

/-- Split a character sequence into fields by POSIX shell word-splitting and
quote rules. -/
def posixShellSplit (s : List Char) : Option (List (List Char)) :=
  splitAux .norm s [] false []

/-! ### The quoting round-trip (C1) and the buffer-size computation (C9) -/

theorem splitAux_squote_cons_ne {c : Char} (hc : ¬ c = '\'')
    (rest cur : List Char) (started : Bool) (acc : List (List Char)) :
    splitAux .squote (c :: rest) cur started acc
      = splitAux .squote rest (cur ++ [c]) started acc := by
  simp [splitAux, hc]

/-- Consuming one quoted argument: from inside single quotes, the escaped
form of `a` followed by the closing quote appends exactly `a` to the
current word and returns to the unquoted mode. -/
theorem splitAux_squote_escape (a : List Char) :
    ∀ (cur : List Char) (acc : List (List Char)) (rest : List Char),
    splitAux .squote (escapeQuotes a ++ ('\'' :: rest)) cur true acc
      = splitAux .norm rest (cur ++ a) true acc := by
  induction a with
  | nil =>
      intro cur acc rest
      simp [escapeQuotes, splitAux]
  | cons c a ih =>
      intro cur acc rest
      by_cases hc : c = '\''
      · subst hc
        have he : escapeQuotes ('\'' :: a)
            = ['\'', '\\', '\'', '\''] ++ escapeQuotes a := by
          simp [escapeQuotes]
        rw [he, List.append_assoc]
        have h1 : splitAux .squote
            ((['\'', '\\', '\'', '\''] : List Char)
              ++ (escapeQuotes a ++ ('\'' :: rest))) cur true acc
            = splitAux .squote (escapeQuotes a ++ ('\'' :: rest))
                (cur ++ ['\'']) true acc := rfl
        rw [h1, ih]
        simp
      · have he : escapeQuotes (c :: a) = c :: escapeQuotes a := by
          simp [escapeQuotes, hc]
        rw [he, List.cons_append, splitAux_squote_cons_ne hc, ih]
        simp

/-- Splitting the joined quoted command string appends exactly the original
argument vector to the accumulated fields. -/
theorem splitAux_shellCommandString (argv : List (List Char)) :
    ∀ acc, splitAux .norm (shellCommandString argv) [] false acc
      = some (acc ++ argv) := by
  induction argv with
  | nil =>
      intro acc
      simp [shellCommandString, splitAux]
  | cons a as ih =>
      intro acc
      cases as with
      | nil =>
          have h1 : splitAux .norm (shellCommandString [a]) [] false acc
              = splitAux .squote (escapeQuotes a ++ ('\'' :: [])) [] true acc := rfl
          rw [h1, splitAux_squote_escape]
          simp [splitAux]
      | cons b bs =>
          have h0 : shellCommandString (a :: b :: bs)
              = '\'' :: (escapeQuotes a
                  ++ ('\'' :: (' ' :: shellCommandString (b :: bs)))) := by
            simp [shellCommandString, quoteArg, List.append_assoc]
          rw [h0]
          have h1 : splitAux .norm
              ('\'' :: (escapeQuotes a
                ++ ('\'' :: (' ' :: shellCommandString (b :: bs))))) [] false acc
              = splitAux .squote
                  (escapeQuotes a ++ ('\'' :: (' ' :: shellCommandString (b :: bs))))
                  [] true acc := rfl
          rw [h1, splitAux_squote_escape]
          simp only [List.nil_append]
          have h2 : splitAux .norm (' ' :: shellCommandString (b :: bs)) a true acc
              = splitAux .norm (shellCommandString (b :: bs)) [] false (acc ++ [a]) := rfl
          rw [h2, ih]
          simp

/-- C1: for every argument vector, building the shell-mode command string
(each argument wrapped in single quotes, every single-quote character inside
an argument replaced by the four-character sequence close-quote, backslash,
quote, open-quote, arguments joined by single spaces) and then splitting the
result with POSIX shell word-splitting and quote rules recovers the original
argument vector exactly — including arguments containing single quotes, empty
strings, and embedded whitespace. -/
theorem quoting_roundtrip (argv : List (List Char)) :
    posixShellSplit (shellCommandString argv) = some argv := by
  unfold posixShellSplit
  simpa using splitAux_shellCommandString argv []

/-- The escaped length equals the argument length plus three per contained
single-quote character. -/
theorem escapeQuotes_length (a : List Char) :
    (escapeQuotes a).length = a.length + 3 * a.count '\'' := by
  induction a with
  | nil => simp [escapeQuotes]
  | cons c a ih =>
      by_cases hc : c = '\''
      · subst hc
        simp [escapeQuotes, ih, List.count_cons]
        ring
      · simp [escapeQuotes, hc, ih, List.count_cons, Ne.symm hc]
        omega

/-- Exact byte count of the joined command string for a nonempty vector. -/
theorem shellCommandString_length_aux (a : List Char) (as : List (List Char)) :
    (shellCommandString (a :: as)).length + 1 = spawnShellBufSize (a :: as) := by
  induction as generalizing a with
  | nil =>
      simp [shellCommandString, quoteArg, spawnShellBufSize, escapedTotal]
  | cons b bs ih =>
      have hb := ih b
      simp [shellCommandString, quoteArg, spawnShellBufSize, escapedTotal] at hb ⊢
      omega

/-- C9: for every (nonempty, as at both call sites) argument vector with
`count` arguments and total escaped length `L = escapedTotal argv`, the
`malloc(total_len + count*3)` allocation of `spawnShell` is exactly
sufficient for the joined quoted command string including its terminating
nul byte: the written string occupies `L + 3*count` bytes in total (its
`count` arguments each wrapped in two quote characters and separated by
`count - 1` spaces, plus the final nul), so no write exceeds the allocation;
and the escaped length of each argument is its length plus three per
contained single-quote character. -/
theorem spawnShell_buffer_exact_fit (argv : List (List Char)) (h : argv ≠ []) :
    (shellCommandString argv).length + 1 = spawnShellBufSize argv ∧
    ∀ a ∈ argv, (escapeQuotes a).length = a.length + 3 * a.count '\'' := by
  refine ⟨?_, fun a _ => escapeQuotes_length a⟩
  cases argv with
  | nil => exact absurd rfl h
  | cons a as => exact shellCommandString_length_aux a as

/-- Witness for C9 at a concrete vector containing a quoted argument and an
empty argument. -/
theorem spawnShell_buffer_exact_fit_witness :
    ([['a', '\'', 'b'], []] : List (List Char)) ≠ [] ∧
    (shellCommandString [['a', '\'', 'b'], []]).length + 1
      = spawnShellBufSize [['a', '\'', 'b'], []] := by
  exact ⟨by decide,
    (spawnShell_buffer_exact_fit [['a', '\'', 'b'], []] (by decide)).1⟩

/-! ### Container discovery (`getInitProcess`, darling.c:1059)

The function reads `<prefix>/.init.pid`, probes the recorded pid with
`kill(pid, 0)`, reads the first token of `/proc/<pid>/comm`, and — unless
the invoking identity is root — scans `/proc/<pid>/status` for the `Uid:`
and `Gid:` lines.  The observable state it consumes is captured in `World`;
its observable actions are the returned pid (0 meaning not running) and
whether it deleted the on-disk record (`unlink(pidPath)`). -/

/-- The expected broker binary name compared against at darling.c:1111. -/
def darlingserverName : List Char :=
  ['d', 'a', 'r', 'l', 'i', 'n', 'g', 's', 'e', 'r', 'v', 'e', 'r']

/-- One line of `/proc/<pid>/status` as seen by the scanning loop: either a
line matching `sscanf(.., "Uid: %d %d %d %d", ..) == 4`, one matching the
`Gid:` pattern, or any other line. -/
inductive StatusLine
  | uid (r e s f : Int)
  | gid (r e s f : Int)
  | other
deriving DecidableEq

/-- What the kernel exposes about the recorded pid: whether `kill(pid, 0)`
succeeds, the first whitespace-delimited token of `/proc/<pid>/comm`
(`none` when the file cannot be opened or `fscanf("%ms")` finds no token —
both paths behave identically at darling.c:1096-1108), and the lines of
`/proc/<pid>/status` (`none` when the file cannot be opened). -/
structure ProcInfo where
  alive : Bool
  comm : Option (List Char)
  status : Option (List StatusLine)

/-- The state read by `getInitProcess`: the pid-record file (`none`: `fopen`
fails, i.e. no record; `some none`: present but `fscanf("%d")` cannot parse
a pid; `some (some pid)`: a recorded pid), the per-pid process information,
and the original invoking identity captured at startup. -/
structure World where
  pidFile : Option (Option Int)
  procs : Int → ProcInfo
  originalUid : Int
  originalGid : Int

/-- The `Uid:`/`Gid:` scanning loop of darling.c:1129-1153: `uidMatch` and
`gidMatch` start at 0; every `Uid:` (resp. `Gid:`) line freshly sets its
flag to 1 and then ands it with the comparison of all four values against
the original uid (resp. gid). -/
def statusScan (origUid origGid : Int) (lines : List StatusLine) : Bool × Bool :=
  lines.foldl
    (fun m l =>
      match l with
      | .uid r e s f =>
          (decide (r = origUid) && decide (e = origUid)
            && decide (s = origUid) && decide (f = origUid), m.2)
      | .gid r e s f =>
          (m.1, decide (r = origGid) && decide (e = origGid)
            && decide (s = origGid) && decide (f = origGid))
      | .other => m)
    (false, false)

/-- getInitProcess (darling.c:1059): returns the discovered init pid (0 when
not running) paired with whether it unlinked the on-disk record.  Branches in
source order: unreadable record file → 0 without deletion; unparsable record
→ delete, 0; `kill(pid, 0) == -1` → delete, 0; `/proc/<pid>/comm` unreadable
or its token differing from `darlingserver` → delete, 0; then, only when the
original uid is not root, unreadable `/proc/<pid>/status` or a failed
uid/gid scan → delete, 0; otherwise the pid is returned and nothing is
deleted. -/
def getInitProcess (w : World) : Int × Bool :=
  match w.pidFile with
  | none => (0, false)
  | some none => (0, true)
  | some (some pid) =>
    let p := w.procs pid
    if p.alive then
      match p.comm with
      | none => (0, true)
      | some comm =>
        if comm = darlingserverName then
          if w.originalUid ≠ 0 then
            match p.status with
            | none => (0, true)
            | some lines =>
              let m := statusScan w.originalUid w.originalGid lines
              if m.1 && m.2 then (pid, false) else (0, true)
          else (pid, false)
        else (0, true)
    else (0, true)

/-- Stale case (a): the recorded pid does not exist. -/
def staleDeadPid (w : World) (pid : Int) : Prop :=
  w.pidFile = some (some pid) ∧ (w.procs pid).alive = false

/-- Stale case (b): the recorded pid is alive but its command name is not
the expected broker binary name. -/
def staleWrongComm (w : World) (pid : Int) : Prop :=
  w.pidFile = some (some pid) ∧ (w.procs pid).alive = true ∧
  ∃ c, (w.procs pid).comm = some c ∧ c ≠ darlingserverName

/-- Stale case (c): alive, matching name, invoking identity non-root, and
at least one of the four uid values differs from the original uid or one of
the four gid values differs from the original gid. -/
def staleWrongIds (w : World) (pid : Int) : Prop :=
  w.pidFile = some (some pid) ∧ (w.procs pid).alive = true ∧
  (w.procs pid).comm = some darlingserverName ∧ w.originalUid ≠ 0 ∧
  ∃ ur ue us uf gr ge gs gf,
    (w.procs pid).status
      = some [StatusLine.uid ur ue us uf, StatusLine.gid gr ge gs gf] ∧
    (ur ≠ w.originalUid ∨ ue ≠ w.originalUid ∨ us ≠ w.originalUid ∨
     uf ≠ w.originalUid ∨ gr ≠ w.originalGid ∨ ge ≠ w.originalGid ∨
     gs ≠ w.originalGid ∨ gf ≠ w.originalGid)

/-- C2: in each of the three stale states — (a) dead pid, (b) wrong command
name, (c) mismatched uid/gid sets with a non-root invoker — `getInitProcess`
returns the not-running result 0 and deletes the on-disk record file. -/
theorem getInitProcess_stale (w : World) (pid : Int)
    (h : staleDeadPid w pid ∨ staleWrongComm w pid ∨ staleWrongIds w pid) :
    getInitProcess w = (0, true) := by
  rcases h with ⟨hpf, ha⟩ | ⟨hpf, ha, c, hc, hne⟩ |
    ⟨hpf, ha, hc, hu, ur, ue, us, uf, gr, ge, gs, gf, hst, hmis⟩
  · simp [getInitProcess, hpf, ha]
  · simp [getInitProcess, hpf, ha, hc, hne]
  · simp only [getInitProcess, hpf, ha, hc, hst, if_pos rfl, if_true, hu,
      ne_eq, not_false_eq_true, if_pos]
    have hscan : statusScan w.originalUid w.originalGid
        [StatusLine.uid ur ue us uf, StatusLine.gid gr ge gs gf]
        = (decide (ur = w.originalUid) && decide (ue = w.originalUid)
            && decide (us = w.originalUid) && decide (uf = w.originalUid),
           decide (gr = w.originalGid) && decide (ge = w.originalGid)
            && decide (gs = w.originalGid) && decide (gf = w.originalGid)) := by
      simp [statusScan]
    rw [hscan]
    rcases hmis with hm | hm | hm | hm | hm | hm | hm | hm <;> simp [hm]

/-- Witness for C2: a world whose record points at a dead pid is reported
not running and its record deleted. -/
theorem getInitProcess_stale_witness :
    staleDeadPid
      { pidFile := some (some 7), procs := fun _ => ⟨false, none, none⟩,
        originalUid := 1000, originalGid := 1000 } 7 ∧
    getInitProcess
      { pidFile := some (some 7), procs := fun _ => ⟨false, none, none⟩,
        originalUid := 1000, originalGid := 1000 } = (0, true) :=
  ⟨⟨rfl, rfl⟩,
    getInitProcess_stale
      { pidFile := some (some 7), procs := fun _ => ⟨false, none, none⟩,
        originalUid := 1000, originalGid := 1000 } 7 (Or.inl ⟨rfl, rfl⟩)⟩

/-- The on-disk state after one run of `getInitProcess`: when the record was
unlinked, a subsequent `fopen` of the pid file fails. -/
def worldAfter (w : World) : World :=
  if (getInitProcess w).2 then { w with pidFile := none } else w

/-- Every deleting branch of `getInitProcess` reports not-running. -/
theorem getInitProcess_deleted_zero (w : World)
    (h : (getInitProcess w).2 = true) : (getInitProcess w).1 = 0 := by
  unfold getInitProcess at h ⊢
  rcases hpf : w.pidFile with _ | opid
  · simp [hpf] at h
  · rcases opid with _ | pid
    · simp [hpf]
    · simp only [hpf] at h ⊢
      by_cases ha : (w.procs pid).alive
      · simp only [ha, if_true] at h ⊢
        rcases hc : (w.procs pid).comm with _ | c
        · simp [hc]
        · simp only [hc] at h ⊢
          by_cases hd : c = darlingserverName
          · simp only [hd, if_pos rfl] at h ⊢
            by_cases hu : w.originalUid ≠ 0
            · simp only [hu, if_true] at h ⊢
              rcases hst : (w.procs pid).status with _ | lines
              · simp [hst, hu]
              · simp only [hst] at h ⊢
                by_cases hm : (statusScan w.originalUid w.originalGid lines).1
                    && (statusScan w.originalUid w.originalGid lines).2
                · simp [hm] at h
                · simp [hm, hu]
            · simp [hu] at h
          · simp [hd]
      · simp [ha]

/-- C8: calling the discover operation twice in succession with no external
state change in between returns the same result both times, and the second
call deletes nothing (no destructive action beyond what the first call
already performed). -/
theorem getInitProcess_idempotent (w : World) :
    (getInitProcess (worldAfter w)).1 = (getInitProcess w).1 ∧
    (getInitProcess (worldAfter w)).2 = false := by
  unfold worldAfter
  by_cases hdel : (getInitProcess w).2
  · rw [if_pos hdel]
    have h1 : getInitProcess { w with pidFile := none } = (0, false) := by
      simp [getInitProcess]
    rw [h1]
    exact ⟨(getInitProcess_deleted_zero w hdel).symm, rfl⟩
  · rw [if_neg hdel]
    exact ⟨rfl, Bool.not_eq_true _ ▸ eq_false_of_ne_true hdel⟩

/-! ### The terminal-proxy event loop (`shellLoop`, darling.c:356) and the
signal handler (`signalHandler`, darling.c:331) -/

/-- Signal numbers (Linux). -/
def SIGINT : Int := 2

def SIGTERM : Int := 15

def SIGWINCH : Int := 28

/-- The protocol-channel branch of the loop (darling.c:436-444): the proxy
reads a 4-byte exit status; `exit(exitStatus)` when `read` returned exactly
`sizeof(int)` bytes, `exit(1)` otherwise (short read, zero bytes at
end-of-stream, or a negative error return). -/
def socketExitCode (bytesRead status : Int) : Int :=
  if bytesRead = 4 then status else 1

/-- The standard-input drain loop (darling.c:413-434), described by the
successive `read(STDIN_FILENO, ..)` return values (each is at most the
4096-byte buffer size, the cap applied to the preceding `FIONREAD` count).
A non-positive read — zero bytes or an error — is `perror` + `exit(1)`,
modelled as `some (some 1)`; a positive short read ends the drain and the
branch completes (`some none`); a full 4096-byte read repeats.  `none`
means the supplied read list ran out while the loop would continue (the
`ioctl` failure path, which likewise exits with status 1, is not modelled
separately). -/
def stdinDrain : List Int → Option (Option Int)
  | [] => none
  | r :: rest =>
      if r ≤ 0 then some (some 1)
      else if r = 4096 then stdinDrain rest
      else some none

/-- One wakeup of `shellLoop` after `poll` (darling.c:388-445), in source
branch order: the pty-master branch (darling.c:401-411) only copies drained
bytes to standard output and has no exit path, so it does not appear in the
result; the standard-input branch (darling.c:413-434) runs when a pty is in
use (`fdcount` is 3 only when `master != -1`) and stdin is readable; the
protocol-channel branch (darling.c:436-444) runs when the channel is
readable or hung-up.  The result is `some (some code)` when the process
exits with `code` during this wakeup, `some none` when the loop continues,
and `none` when the unbounded stdin drain is not captured by the supplied
read list. -/
def shellLoopStep (hasPty ptyReady stdinReady sockReady : Bool)
    (stdinReads : List Int) (sockBytesRead sockStatus : Int) :
    Option (Option Int) :=
  match (if hasPty && stdinReady then stdinDrain stdinReads else some none) with
  | none => none
  | some (some code) => some (some code)
  | some none =>
      if sockReady then some (some (socketExitCode sockBytesRead sockStatus))
      else some none

/-- C7: when the protocol channel becomes readable or hung-up in the
terminal-proxy event loop (and the earlier standard-input branch, which is
checked first, did not itself exit), the proxy reads a 4-byte exit status:
if exactly 4 bytes are read it terminates the process with that status, and
in every other case (short read, zero bytes, or read error) it terminates
the process with the generic failure status 1. -/
theorem shellLoop_socket_exit (hasPty ptyReady stdinReady : Bool)
    (stdinReads : List Int) (bytes status : Int)
    (hstdin : (if hasPty && stdinReady then stdinDrain stdinReads
        else some none) = some none) :
    (bytes = 4 →
      shellLoopStep hasPty ptyReady stdinReady true stdinReads bytes status
        = some (some status)) ∧
    (bytes ≠ 4 →
      shellLoopStep hasPty ptyReady stdinReady true stdinReads bytes status
        = some (some 1)) := by
  unfold shellLoopStep
  rw [hstdin]
  constructor <;> intro hb <;> simp [socketExitCode, hb]

/-- Witness for C7: a full 4-byte status of 42 exits with 42; a 3-byte short
read exits with 1. -/
theorem shellLoop_socket_exit_witness :
    shellLoopStep false false false true [] 4 42 = some (some 42) ∧
    shellLoopStep false false false true [] 3 42 = some (some 1) :=
  ⟨(shellLoop_socket_exit false false false [] 4 42 rfl).1 rfl,
   (shellLoop_socket_exit false false false [] 3 42 rfl).2 (by decide)⟩

/-- C10: whenever standard input is reported readable but the subsequent
read returns zero bytes or fails (a non-positive return, e.g. end-of-file
in pty mode), the process terminates immediately with exit status 1,
without reading the broker's exit status — the result is 1 for every state
of the protocol channel, including a ready channel reporting status 0. -/
theorem shellLoop_stdin_eof_exit (ptyReady : Bool) (r : Int)
    (rest : List Int) (hr : r ≤ 0) (sockReady : Bool) (bytes status : Int) :
    shellLoopStep true ptyReady true sockReady (r :: rest) bytes status
      = some (some 1) := by
  simp [shellLoopStep, stdinDrain, hr]

/-- Witness for C10: a zero-byte read on stdin exits with 1 even though the
protocol channel is simultaneously ready with a complete status of 0. -/
theorem shellLoop_stdin_eof_exit_witness :
    shellLoopStep true true true true [0] 4 0 = some (some 1) :=
  shellLoop_stdin_eof_exit true 0 [] (by decide) true 4 0

/-- The observable effect of one run of `signalHandler` (darling.c:331):
whether the window size was re-read and applied to the pty master, and the
signal number pushed to the protocol channel as a `SHELLSPAWN_SIGNAL`
command.  The push at darling.c:353 is unconditional; the only transform is
the SIGINT-to-SIGTERM remap when no pty is in use (darling.c:350). -/
structure SignalEffect where
  resizedPty : Bool
  sentSignal : Int
deriving DecidableEq

/-- signalHandler (darling.c:331): on SIGWINCH with a pty master in use it
re-reads the terminal size and applies it to the pty master; it then falls
through and always pushes a `SHELLSPAWN_SIGNAL` command with the (possibly
remapped) signal number. -/
def signalHandler (ptyMaster signo : Int) : SignalEffect :=
  { resizedPty := decide (signo = SIGWINCH ∧ ptyMaster ≠ -1),
    sentSignal := if ptyMaster = -1 ∧ signo = SIGINT then SIGTERM else signo }

/-- The commands one run of the handler writes to the protocol channel. -/
def signalHandlerTrace (ptyMaster signo : Int) : List Cmd :=
  [.signal (signalHandler ptyMaster signo).sentSignal]

/-- Counterexample to C5: with a pty in use (master descriptor 5), a
SIGWINCH is applied to the pty master directly, but a `Signal` command
carrying SIGWINCH is nonetheless written to the protocol channel — the
claimed absence of any such command is false. -/
theorem sigwinch_counterexample :
    (signalHandler 5 SIGWINCH).resizedPty = true ∧
    signalHandlerTrace 5 SIGWINCH = [Cmd.signal SIGWINCH] ∧
    signalHandlerTrace 5 SIGWINCH ≠ [] := by decide

/-- C5 as amended: when the handler receives SIGWINCH while a pty is in use,
it applies the re-read terminal size to the pty master directly and awaits
no reply, but it does not suppress forwarding: exactly one `Signal` command
carrying SIGWINCH (un-remapped) is also written to the protocol channel. -/
theorem sigwinch_resize_and_forward (master : Int) (hm : master ≠ -1) :
    (signalHandler master SIGWINCH).resizedPty = true ∧
    signalHandlerTrace master SIGWINCH = [Cmd.signal SIGWINCH] := by
  constructor
  · simp [signalHandler, hm]
  · simp [signalHandlerTrace, signalHandler, SIGWINCH, SIGINT]

/-- Witness for the amended C5 at master descriptor 5. -/
theorem sigwinch_resize_and_forward_witness :
    (signalHandler 5 SIGWINCH).resizedPty = true ∧
    signalHandlerTrace 5 SIGWINCH = [Cmd.signal SIGWINCH] :=
  sigwinch_resize_and_forward 5 (by decide)

/-! ### Spawn-request command traces (`setupShellspawnEnv` darling.c:580,
`setupWorkingDir` darling.c:611, `setupIDs` darling.c:618, `spawnShell`
darling.c:651, `spawnBinary` darling.c:698, `spawnGo` darling.c:639) -/

/-- The PATH value pushed at darling.c:585. -/
def pathEnvChars : List Char :=
  (r"PATH=/usr/bin:/bin:/usr/sbin:/sbin:/usr/local/bin").data

/-- The TMPDIR value pushed at darling.c:591. -/
def tmpdirEnvChars : List Char := (r"TMPDIR=/private/tmp").data

/-- The HOME value prefix built at darling.c:607, completed by the resolved
login name. -/
def homeEnvBase : List Char := (r"HOME=/Users/").data

/-- The literal first shell argument pushed at darling.c:686. -/
def minusC : List Char := ['-', 'c']

/-- The resolved path of /bin/true (`realpath` is the identity on it). -/
def binTrue : List Char := (r"/bin/true").data

/-- setupShellspawnEnv (darling.c:580): three SETENV commands — PATH,
TMPDIR, and HOME derived from the resolved login name. -/
def setupShellspawnEnvTrace (login : List Char) : List Cmd :=
  [.setEnv pathEnvChars, .setEnv tmpdirEnvChars,
   .setEnv (homeEnvBase ++ login)]

/-- setupWorkingDir (darling.c:611): one CHDIR command with the working
directory translated under SYSTEM_ROOT. -/
def setupWorkingDirTrace (systemRoot workdir : List Char) : List Cmd :=
  [.chdir (systemRoot ++ workdir)]

/-- setupIDs (darling.c:618): one SETUIDGID command with the original
uid and gid. -/
def setupIDsTrace (uid gid : Int) : List Cmd :=
  [.setUidGid uid gid]

/-- The command sequence sent by `spawnShell` (darling.c:651): environment
setup; when an argument vector was given (`argv != NULL`), ADDARG of the
literal `-c` and ADDARG of the joined quoted command string; working
directory; identity; GO with the three chosen descriptors. -/
def spawnShellTrace (login : List Char) (args : Option (List (List Char)))
    (systemRoot workdir : List Char) (uid gid f0 f1 f2 : Int) : List Cmd :=
  setupShellspawnEnvTrace login ++
    (match args with
     | none => []
     | some as => [.addArg minusC, .addArg (shellCommandString as)]) ++
    setupWorkingDirTrace systemRoot workdir ++ setupIDsTrace uid gid ++
    [.go f0 f1 f2]

/-- The command sequence sent by `spawnBinary` (darling.c:698): environment
setup; SETEXEC of the binary path; one ADDARG per element of the argument
vector; working directory; identity; GO with the three chosen
descriptors. -/
def spawnBinaryTrace (login binary : List Char) (args : List (List Char))
    (systemRoot workdir : List Char) (uid gid f0 f1 f2 : Int) : List Cmd :=
  setupShellspawnEnvTrace login ++ [.setExec binary] ++ args.map .addArg ++
    setupWorkingDirTrace systemRoot workdir ++ setupIDsTrace uid gid ++
    [.go f0 f1 f2]

/-- The trace of `<argv0> exec /bin/true` (darling.c:205-231): `realpath`
resolves /bin/true to itself, the sandbox-rooted `SYSTEM_ROOT ++ /bin/true`
replaces `argv[2]`, and `spawnBinary` receives that path both as the binary
and as the single element of the argument vector. -/
def execTrueTrace (login systemRoot workdir : List Char)
    (uid gid f0 f1 f2 : Int) : List Cmd :=
  spawnBinaryTrace login (systemRoot ++ binTrue) [systemRoot ++ binTrue]
    systemRoot workdir uid gid f0 f1 f2

/-- The command-kind sequence asserted by the claim for `exec /bin/true`:
three SetEnv, SetExec, Chdir, SetIdentity, Go — with no other command
before Go. -/
def claimedExecKinds : List CmdKind :=
  [.setEnv, .setEnv, .setEnv, .setExec, .chdir, .setUidGid, .go]

/-- Counterexample to C3: for a concrete invocation of `exec /bin/true`,
the command-kind sequence actually sent is not the claimed one — an AddArg
command (the target's argv[0]) is sent between SetExec and Chdir. -/
theorem exec_sequence_counterexample :
    (execTrueTrace ['u'] ['/', 's'] ['/', 'w'] 500 500 0 1 2).map Cmd.kind
      ≠ claimedExecKinds := by decide

/-- C3 as amended: for an invocation `<argv0> exec /bin/true` the client
sends, in order, exactly SetEnv, SetEnv, SetEnv, SetExec with the
sandbox-rooted path of /bin/true, AddArg with that same path (the target's
argv[0]), Chdir, SetIdentity, Go — and no other commands before Go; and the
process exits with status 0 when the broker reports a (4-byte) exit status
of 0. -/
theorem exec_command_sequence (login systemRoot workdir : List Char)
    (uid gid f0 f1 f2 : Int) :
    execTrueTrace login systemRoot workdir uid gid f0 f1 f2
      = [.setEnv pathEnvChars, .setEnv tmpdirEnvChars,
         .setEnv (homeEnvBase ++ login),
         .setExec (systemRoot ++ binTrue), .addArg (systemRoot ++ binTrue),
         .chdir (systemRoot ++ workdir), .setUidGid uid gid,
         .go f0 f1 f2]
    ∧ socketExitCode 4 0 = 0 := by
  constructor
  · simp [execTrueTrace, spawnBinaryTrace, setupShellspawnEnvTrace,
      setupWorkingDirTrace, setupIDsTrace]
  · rfl

/-- The GO commands contained in a trace. -/
def goCommands (tr : List Cmd) : List Cmd :=
  tr.filter fun c => decide (c.kind = CmdKind.go)

theorem goCommands_map_addArg (args : List (List Char)) :
    goCommands (args.map Cmd.addArg) = [] := by
  induction args with
  | nil => rfl
  | cons a as ih => simp [goCommands, List.filter_cons, Cmd.kind, ih]

/-- C6: in both shell mode and exec mode, every spawn request contains
exactly one Go message, it is the final command, its payload is empty
(payload_length 0), and it is transferred together with a single
ancillary-data transfer carrying exactly the three file descriptors chosen
as the stdin, stdout and stderr replacements. -/
theorem go_message_shape (login : List Char) (args : Option (List (List Char)))
    (binary : List Char) (bargs : List (List Char))
    (systemRoot workdir : List Char) (uid gid f0 f1 f2 : Int) :
    goCommands (spawnShellTrace login args systemRoot workdir uid gid f0 f1 f2)
      = [Cmd.go f0 f1 f2] ∧
    goCommands (spawnBinaryTrace login binary bargs systemRoot workdir
      uid gid f0 f1 f2) = [Cmd.go f0 f1 f2] ∧
    Cmd.payloadLength (Cmd.go f0 f1 f2) = 0 ∧
    Cmd.ancillaryFds (Cmd.go f0 f1 f2) = [f0, f1, f2] ∧
    (Cmd.ancillaryFds (Cmd.go f0 f1 f2)).length = 3 ∧
    (spawnShellTrace login args systemRoot workdir uid gid f0 f1 f2).getLast?
      = some (Cmd.go f0 f1 f2) ∧
    (spawnBinaryTrace login binary bargs systemRoot workdir
      uid gid f0 f1 f2).getLast? = some (Cmd.go f0 f1 f2) := by
  refine ⟨?_, ?_, rfl, rfl, rfl, ?_, ?_⟩
  · cases args <;>
      simp [spawnShellTrace, goCommands, List.filter_append, List.filter_cons,
        setupShellspawnEnvTrace, setupWorkingDirTrace, setupIDsTrace, Cmd.kind]
  · have hm := goCommands_map_addArg bargs
    simp only [goCommands] at hm
    simp [spawnBinaryTrace, goCommands, List.filter_append, List.filter_cons,
      setupShellspawnEnvTrace, setupWorkingDirTrace, setupIDsTrace, Cmd.kind, hm]
  · simp only [spawnShellTrace, ← List.append_assoc]
    rw [List.getLast?_append_cons]
    rfl
  · simp only [spawnBinaryTrace, ← List.append_assoc]
    rw [List.getLast?_append_cons]
    rfl

/-! ### The socket address built by `connectToShellspawn` (darling.c:548)

With `USE_LINUX_4_11_HACK` defined (it always is, darling.c:47), the address
is built by three statements on the 108-byte `sun_path` array:

  `addr.sun_path[0] = '\0';` — write a nul byte at index 0;
  `strcpy(addr.sun_path, prefix);` — copy the prefix, *starting at index 0*;
  `strcat(addr.sun_path, SHELLSPAWN_SOCKPATH);` — append the socket path.

The buffer is modelled byte-for-byte as a `List Char` (each `Char` one
byte).  The value of the `SHELLSPAWN_SOCKPATH` constant lives in
`src/shellspawn/shellspawn.h`, which is not part of this source; it is kept
as a parameter — per the spec it is a fixed relative path under the prefix
root, so it is nul-free and nonempty. -/

/-- The nul byte. -/
def NUL : Char := Char.ofNat 0

/-- memcpy-style overwrite of `buf` at byte offset `i` with `src` (the
in-bounds case; all uses below stay inside the buffer). -/
def storeBytes (buf : List Char) (i : Nat) (src : List Char) : List Char :=
  buf.take i ++ src ++ buf.drop (i + src.length)

/-- The C string held by a buffer: its bytes up to the first nul. -/
def cstrOf (buf : List Char) : List Char :=
  buf.takeWhile fun c => decide (c ≠ NUL)

/-- `sizeof(sun_path)` on Linux. -/
def sunPathSize : Nat := 108

/-- `strcpy(buf, src)`: write `src` and its terminating nul at offset 0. -/
def strcpyBuf (buf src : List Char) : List Char :=
  storeBytes buf 0 (src ++ [NUL])

/-- `strcat(buf, src)`: write `src` and its terminating nul starting at the
current terminating nul of `buf`. -/
def strcatBuf (buf src : List Char) : List Char :=
  storeBytes buf (cstrOf buf).length (src ++ [NUL])

/-- The `sun_path` bytes after the three statements of
`connectToShellspawn` (darling.c:556-559), starting from a zero-filled
address structure. -/
def sunPath (pfx sockPath : List Char) : List Char :=
  strcatBuf (strcpyBuf ((List.replicate sunPathSize NUL).set 0 NUL) pfx)
    sockPath

/-- Counterexample to C4: for a concrete prefix and socket path, the
`sun_path` bytes handed to `connect` do not begin with a nul byte — the
`strcpy` immediately overwrites the nul written at index 0, so the address
is an ordinary pathname, here the string `/r/s`. -/
theorem sunPath_counterexample :
    (sunPath ['/', 'r'] ['/', 's']).head? = some '/' ∧
    ¬ (sunPath ['/', 'r'] ['/', 's']).head? = some NUL ∧
    cstrOf (sunPath ['/', 'r'] ['/', 's']) = ['/', 'r', '/', 's'] := by
  decide

theorem takeWhile_append_of_all {p : Char → Bool} (xs ys : List Char)
    (h : ∀ x ∈ xs, p x = true) :
    (xs ++ ys).takeWhile p = xs ++ ys.takeWhile p := by
  induction xs with
  | nil => simp
  | cons a as ih =>
      have ha : p a = true := h a (by simp)
      simp only [List.cons_append, List.takeWhile_cons, ha, if_true]
      rw [ih fun x hx => h x (by simp [hx])]

/-- C4 as amended: the socket address used by the protocol client is an
ordinary filesystem pathname, not an abstract-namespace address: the nul
byte written to `sun_path[0]` is immediately overwritten by the `strcpy`,
and the resulting `sun_path` holds the nul-terminated concatenation of the
prefix path and the fixed relative socket path. -/
theorem sunPath_pathname (pfx sockPath : List Char)
    (hp : NUL ∉ pfx) (hs : NUL ∉ sockPath)
    (hfit : pfx.length + sockPath.length + 1 ≤ sunPathSize) :
    cstrOf (sunPath pfx sockPath) = pfx ++ sockPath := by
  have hp' : ∀ x ∈ pfx, (fun c => decide (c ≠ NUL)) x = true := by
    intro x hx
    simp only [decide_eq_true_eq]
    exact fun he => hp (he ▸ hx)
  have hs' : ∀ x ∈ sockPath, (fun c => decide (c ≠ NUL)) x = true := by
    intro x hx
    simp only [decide_eq_true_eq]
    exact fun he => hs (he ▸ hx)
  have hset : (List.replicate sunPathSize NUL).set 0 NUL
      = List.replicate sunPathSize NUL := by decide
  have h1 : strcpyBuf ((List.replicate sunPathSize NUL).set 0 NUL) pfx
      = pfx ++ NUL :: List.replicate (sunPathSize - (pfx.length + 1)) NUL := by
    rw [hset]
    simp [strcpyBuf, storeBytes, List.drop_replicate]
  have hcstr1 : cstrOf (pfx ++ NUL
      :: List.replicate (sunPathSize - (pfx.length + 1)) NUL) = pfx := by
    unfold cstrOf
    rw [takeWhile_append_of_all _ _ hp']
    simp [List.takeWhile_cons, NUL]
  unfold sunPath
  rw [h1]
  unfold strcatBuf
  rw [hcstr1]
  unfold storeBytes
  have htake : (pfx ++ NUL
      :: List.replicate (sunPathSize - (pfx.length + 1)) NUL).take pfx.length
      = pfx := by
    rw [List.take_append_of_le_length (Nat.le_refl _), List.take_length]
  rw [htake]
  unfold cstrOf
  rw [List.append_assoc, takeWhile_append_of_all _ _ hp', List.append_assoc,
    takeWhile_append_of_all _ _ hs']
  simp [List.takeWhile_cons, NUL]

/-- Witness for the amended C4 at a concrete prefix and socket path. -/
theorem sunPath_pathname_witness :
    NUL ∉ (['/', 'p'] : List Char) ∧ NUL ∉ (['/', 's'] : List Char) ∧
    (['/', 'p'] : List Char).length + (['/', 's'] : List Char).length + 1
      ≤ sunPathSize ∧
    cstrOf (sunPath ['/', 'p'] ['/', 's']) = ['/', 'p'] ++ ['/', 's'] :=
  ⟨by decide, by decide, by decide,
   sunPath_pathname ['/', 'p'] ['/', 's'] (by decide) (by decide) (by decide)⟩

end Darling
